import Mathlib

/- Formal model of the Apple Health / Google Fit visualization repository's
   parsing and normalization pipeline.  Shallow embedding of:
     - src/file_parser.py : xml_parser (here xmlParse), csv_parser (here csvParse),
       and the google_fit_units rename table;
     - src/app.py : parse_xml (here parseXml) and excel_parser (here excelParse);
     - src/utils.py : display_metrics (here displayMetricsGoogle).
   Strings that reach the parsers already coerced (pd.to_numeric / pd.to_datetime
   with errors="coerce") are modelled as Option values: none is a coercion
   failure (NaN / NaT), some q is the parsed number or epoch-second timestamp. -/

namespace HealthViz

/-- Calendar day of an epoch-second timestamp; models pandas Series.dt.date. -/
def dateOf (t : Int) : Int := t.fdiv 86400

/-- Floor of a rational, computed from numerator and denominator. -/
def qfloor (q : ℚ) : Int := q.num.fdiv (q.den : Int)

/-- Nearest integer with ties to even, the rounding used by numpy/pandas round. -/
def roundHalfEven (q : ℚ) : Int :=
  let f := qfloor q
  let frac := q - (f : ℚ)
  if frac < 1/2 then f
  else if 1/2 < frac then f + 1
  else if f % 2 = 0 then f else f + 1

/-- Model of pandas Series.round(2). -/
def round2 (q : ℚ) : ℚ := (roundHalfEven (q * 100) : ℚ) / 100

/-- Model of an IEEE double as produced by the pipeline's arithmetic: an exact
    rational value, a NaN, or a signed infinity. -/
inductive PFloat where
  | val : ℚ → PFloat
  | nan : PFloat
  | inf : PFloat
  | ninf : PFloat
deriving DecidableEq

/-- Float division as pandas DataFrame.div performs it cellwise: x / 0 is NaN
    when x = 0, positive infinity when x > 0, negative infinity when x < 0. -/
def pdiv (a b : ℚ) : PFloat :=
  if b ≠ 0 then .val (a / b)
  else if a = 0 then .nan
  else if 0 < a then .inf
  else .ninf

/-- Model of fillna(0) on a cell: replaces NaN, and only NaN, by 0. -/
def fillZ : PFloat → PFloat
  | .nan => .val 0
  | x => x

/-- Model of round(2) on a cell: NaN and the infinities pass through. -/
def proundTwo : PFloat → PFloat
  | .val q => .val (round2 q)
  | x => x

/-- Insert into a strictly sorted duplicate-free list, keeping it so. -/
def insertU {α : Type} [LinearOrder α] (x : α) : List α → List α
  | [] => [x]
  | y :: ys => if x < y then x :: y :: ys else if x = y then y :: ys else y :: insertU x ys

/-- Sorted, deduplicated list of elements; models the index produced by a
    pandas pivot_table / groupby (group keys, ascending, unique). -/
def sortedU {α : Type} [LinearOrder α] (l : List α) : List α := l.foldr insertU []

/-- Head bound check: a is strictly below the head (vacuously true for []). -/
def ltHead {α : Type} [LinearOrder α] (a : α) : List α → Bool
  | [] => true
  | b :: _ => decide (a < b)

/-- Strictly-increasing test for a list. -/
def isStrictIncr {α : Type} [LinearOrder α] : List α → Bool
  | [] => true
  | [_] => true
  | a :: b :: t => decide (a < b) && isStrictIncr (b :: t)

theorem isStrictIncr_cons {α : Type} [LinearOrder α] (a : α) (l : List α) :
    isStrictIncr (a :: l) = (ltHead a l && isStrictIncr l) := by
  cases l <;> simp [isStrictIncr, ltHead]

theorem ltHead_insertU {α : Type} [LinearOrder α] {a x : α} {l : List α}
    (hax : a < x) (h : ltHead a l = true) : ltHead a (insertU x l) = true := by
  cases l with
  | nil => simpa [insertU, ltHead] using hax
  | cons y ys =>
    by_cases hxy : x < y
    · simpa [insertU, hxy, ltHead] using hax
    · by_cases hxe : x = y
      · simpa [insertU, hxy, hxe, ltHead] using h
      · simpa [insertU, hxy, hxe, ltHead] using h

theorem insertU_strictIncr {α : Type} [LinearOrder α] (x : α) (l : List α)
    (h : isStrictIncr l = true) : isStrictIncr (insertU x l) = true := by
  induction l with
  | nil => simp [insertU, isStrictIncr]
  | cons y ys ih =>
    rw [isStrictIncr_cons, Bool.and_eq_true] at h
    obtain ⟨hy, hys⟩ := h
    by_cases hxy : x < y
    · rw [insertU, if_pos hxy, isStrictIncr_cons]
      have h1 : ltHead x (y :: ys) = true := by simp [ltHead, hxy]
      have h2 : isStrictIncr (y :: ys) = true := by
        rw [isStrictIncr_cons]; simp [hy, hys]
      simp [h1, h2]
    · by_cases hxe : x = y
      · rw [insertU, if_neg hxy, if_pos hxe, isStrictIncr_cons]
        simp [hy, hys]
      · have hyx : y < x := lt_of_le_of_ne (le_of_not_lt hxy) (Ne.symm hxe)
        rw [insertU, if_neg hxy, if_neg hxe, isStrictIncr_cons, Bool.and_eq_true]
        exact ⟨ltHead_insertU hyx hy, ih hys⟩

theorem mem_insertU {α : Type} [LinearOrder α] {a x : α} {l : List α} :
    a ∈ insertU x l ↔ a = x ∨ a ∈ l := by
  induction l with
  | nil => simp [insertU]
  | cons y ys ih =>
    by_cases hxy : x < y
    · simp [insertU, hxy]
    · by_cases hxe : x = y
      · subst hxe
        rw [insertU, if_neg hxy, if_pos rfl]
        simp only [List.mem_cons]
        tauto
      · simp only [insertU, if_neg hxy, if_neg hxe, List.mem_cons, ih]
        tauto

theorem mem_sortedU {α : Type} [LinearOrder α] {a : α} {l : List α} :
    a ∈ sortedU l ↔ a ∈ l := by
  induction l with
  | nil => simp [sortedU]
  | cons y ys ih =>
    simp only [sortedU, List.foldr_cons, List.mem_cons]
    rw [show List.foldr insertU [] ys = sortedU ys from rfl] at *
    rw [mem_insertU, ih]

theorem sortedU_strictIncr {α : Type} [LinearOrder α] (l : List α) :
    isStrictIncr (sortedU l) = true := by
  induction l with
  | nil => rfl
  | cons y ys ih => exact insertU_strictIncr y (sortedU ys) ih

/-- Apple HealthKit type namespaces removed by both XML parsers, in the order
    the regex alternation tries them. -/
def hkPats : List (List Char) :=
  ["HKQuantityTypeIdentifier".toList, "HKCategoryTypeIdentifier".toList, "HKDataType".toList]

/-- Fuelled scan removing every occurrence of the namespace patterns; models
    Series.str.replace with the alternation regex. -/
def stripAux : Nat → List Char → List Char
  | 0, l => l
  | _ + 1, [] => []
  | n + 1, c :: rest =>
    match hkPats.find? (fun p => p.isPrefixOf (c :: rest)) with
    | some p => stripAux n ((c :: rest).drop p.length)
    | none => c :: stripAux n rest

/-- Type-cleaning step shared by both XML parsers. -/
def stripHK (s : String) : String := String.mk (stripAux s.toList.length s.toList)

/-- One Record element of an Apple Health export as consumed by
    file_parser.xml_parser after attribute extraction: value is the outcome of
    pd.to_numeric coercion of the value string (none = failure), the three
    timestamps are parsed epoch seconds. -/
structure XmlRecord where
  rectype : String
  value : Option ℚ
  creationDate : Int
  startDate : Int
  endDate : Int
deriving DecidableEq

/-- Types aggregated by summing in file_parser.xml_parser (sum_cols). -/
def sumColsX : List String :=
  ["ActiveEnergyBurned", "BasalEnergyBurned", "DistanceWalkingRunning",
   "FlightsClimbed", "StepCount"]

/-- Types aggregated by duration-weighted average in file_parser.xml_parser. -/
def weightedColsX : List String :=
  ["HeadphoneAudioExposure", "WalkingAsymmetryPercentage",
   "WalkingDoubleSupportPercentage", "WalkingSpeed", "WalkingStepLength"]

/-- Column rename applied by file_parser.xml_parser to the pivoted table. -/
def xmlRenamePairs : List (String × String) :=
  [("ActiveEnergyBurned", "Active Energy Burned (cal)"),
   ("BasalEnergyBurned", "Basal Energy Burned (cal)"),
   ("DistanceWalkingRunning", "Distance Walking & Running (km)"),
   ("FlightsClimbed", "Flights Climbed"),
   ("StepCount", "Step Count"),
   ("HeadphoneAudioExposure", "Headphone Audio Exposure (dB)"),
   ("WalkingAsymmetryPercentage", "Walking Asymmetry Percentage (%)"),
   ("WalkingDoubleSupportPercentage", "Walking Double Support Percentage (%)"),
   ("WalkingSpeed", "Walking Speed (m/s)"),
   ("WalkingStepLength", "Walking Step Length (m)")]

def renameXml (t : String) : String :=
  ((xmlRenamePairs.find? (fun p => p.1 == t)).map (fun p => p.2)).getD t

def unrenameXml (c : String) : String :=
  ((xmlRenamePairs.find? (fun p => p.2 == c)).map (fun p => p.1)).getD c

/-- Cleaned type of a record (the regex replacement of line 52). -/
def stypeX (r : XmlRecord) : String := stripHK r.rectype

/-- Value after coercion and fillna(0) (file_parser.py line 59). -/
def xval (r : XmlRecord) : ℚ := r.value.getD 0

/-- Duration (s) column: total seconds of endDate - startDate. -/
def durX (r : XmlRecord) : ℚ := ((r.endDate - r.startDate : Int) : ℚ)

/-- Date index key: calendar day of creationDate. -/
def rdayX (r : XmlRecord) : Int := dateOf r.creationDate

/-- A record contributes to the final table iff its cleaned type is a sum
    column or a weighted column (both pivots filter with isin). -/
def keepX (r : XmlRecord) : Bool := (sumColsX ++ weightedColsX).contains (stypeX r)

/-- Date index of the table built by file_parser.xml_parser: the union of the
    two pivot indexes, which pivoting and the axis-1 concat leave sorted and
    deduplicated. -/
def xmlDates (rs : List XmlRecord) : List Int := sortedU ((rs.filter keepX).map rdayX)

/-- Same-day same-type group feeding one aggregated cell. -/
def xmlGroup (rs : List XmlRecord) (d : Int) (t : String) : List XmlRecord :=
  rs.filter (fun r => rdayX r == d && stypeX r == t)

/-- Duration-weighted-average cell of file_parser.xml_parser before renaming:
    pivot of value*duration sums divided by the pivot of duration sums, then
    the final fillna(0) and round(2). A (day, type) pair with no records is a
    cell absent from the weighted sub-table, hence 0 after the final fill. -/
def xmlWeightedCell (rs : List XmlRecord) (d : Int) (t : String) : PFloat :=
  let g := xmlGroup rs d t
  if g.isEmpty then .val 0
  else proundTwo (fillZ (pdiv ((g.map (fun r => xval r * durX r)).sum) ((g.map durX).sum)))

/-- Sum cell of file_parser.xml_parser before renaming: summed in the pivot,
    rounded there, and rounded again after the concat. -/
def xmlSumCell (rs : List XmlRecord) (d : Int) (t : String) : ℚ :=
  round2 (round2 (((xmlGroup rs d t).map xval).sum))

/-- Cell of the final table of file_parser.xml_parser at canonical column c. -/
def xmlCell (rs : List XmlRecord) (d : Int) (c : String) : PFloat :=
  let t := unrenameXml c
  if t ∈ sumColsX then .val (xmlSumCell rs d t)
  else if t ∈ weightedColsX then xmlWeightedCell rs d t
  else .val 0

/-- Columns of the table of file_parser.xml_parser: the sum types present in
    the data followed by the weighted types present, renamed. -/
def xmlColumns (rs : List XmlRecord) : List String :=
  ((sumColsX.filter (fun t => rs.any (fun r => stypeX r == t))) ++
   (weightedColsX.filter (fun t => rs.any (fun r => stypeX r == t)))).map renameXml

theorem round2_eighty : round2 80 = 80 := by
  norm_num [round2, roundHalfEven, qfloor]

theorem round2_zero : round2 0 = 0 := by
  norm_num [round2, roundHalfEven, qfloor]

/-- One Record element as consumed by app.parse_xml: value is the numeric
    coercion outcome; startDate and endDate are the outcomes of
    pd.to_datetime(..., errors="coerce") after the timezone suffix chop
    (none = NaT), in epoch seconds. -/
structure ARecord where
  rectype : String
  value : Option ℚ
  startDate : Option Int
  endDate : Option Int
deriving DecidableEq

/-- Exclusion set of app.parse_xml (unwanted_types). -/
def unwantedTypesA : List String :=
  ["HeadphoneAudioExposure", "SleepDurationGoal", "FlightsClimbed"]

def stypeA (r : ARecord) : String := stripHK r.rectype

/-- Row survives the unwanted-type filter. -/
def akeep (r : ARecord) : Bool := !(unwantedTypesA.contains (stypeA r))

/-- Rows surviving app.parse_xml's row filters (endDate-present branch): the
    type exclusion filter followed by dropna on the coerced timestamps. -/
def parseXmlRows (rs : List ARecord) : List ARecord :=
  (rs.filter akeep).filter (fun r => r.startDate.isSome && r.endDate.isSome)

/-- Value after coercion and fillna(1.0) (app.py line 60). -/
def aval (r : ARecord) : ℚ := r.value.getD 1

/-- Duration column of app.parse_xml in seconds (meaningful on kept rows). -/
def adur (r : ARecord) : Int := r.endDate.getD 0 - r.startDate.getD 0

/-- Date index key of app.parse_xml: calendar day of startDate. -/
def aday (r : ARecord) : Int := dateOf (r.startDate.getD 0)

/-- Date index of app.parse_xml's pivot. -/
def parseXmlDates (rs : List ARecord) : List Int := sortedU ((parseXmlRows rs).map aday)

/-- Columns of app.parse_xml's pivot: every cleaned type of a surviving row. -/
def parseXmlColumns (rs : List ARecord) : List String :=
  sortedU ((parseXmlRows rs).map stypeA)

/-- Cell of app.parse_xml's pivot (aggfunc sum, fill_value 0). -/
def parseXmlCell (rs : List ARecord) (d : Int) (t : String) : ℚ :=
  (((parseXmlRows rs).filter (fun r => aday r == d && stypeA r == t)).map aval).sum

/-- app.parse_xml outcome: the date index and columns of the pivoted table, or
    none for the empty-table error outcome.  When SleepAnalysis rows survive,
    joining the duration sub-table onto a pivot that already owns a
    SleepAnalysis value column raises on the duplicated column name, the
    exception handler runs, and the empty table is returned: modelled none. -/
def parseXml (rs : List ARecord) : Option (List Int × List String) :=
  let kept := parseXmlRows rs
  if kept.isEmpty then none
  else if kept.any (fun r => stypeA r == "SleepAnalysis") then none
  else some (sortedU (kept.map aday), sortedU (kept.map stypeA))

/-- Fixed canonical metric vocabulary of the spec (section 6). -/
def canonicalVocab : List String :=
  ["Step Count", "Distance Covered (km)", "Distance Walking & Running (km)",
   "Active Energy Burned (cal)", "Basal Energy Burned (cal)",
   "Calories Burned (kcal)", "Heart Points", "Walking Speed (m/s)",
   "Walking Step Length (m)", "Flights Climbed", "Headphone Audio Exposure (dB)",
   "Walking Asymmetry Percentage (%)", "Walking Double Support Percentage (%)"]

/-- A Google Fit CSV/Excel source as the tabular parsers see it after reading:
    a header, a row count, the numeric cells (none = NaN / missing), and the
    parsed Date of each row. -/
structure CsvIn where
  header : List String
  nrows : Nat
  entry : String → Nat → Option ℚ
  dateAt : Nat → Int

/-- The date-indexed table a tabular parser returns. -/
structure GTable where
  dates : List Int
  header : List String
  cell : String → Nat → ℚ

/-- Error outcomes surfaced as an empty result (None plus st.error/warning). -/
inductive ParseErr where
  | emptyData
  | schemaMismatch
deriving DecidableEq

/-- google_fit_units rename table of src/file_parser.py. -/
def googleFitUnits : List (String × String) :=
  [("Move Minutes count", "Move Minutes (mins)"),
   ("Calories (kcal)", "Calories Burned (kcal)"),
   ("Distance (m)", "Distance Covered (km)"),
   ("Heart Points", "Heart Points"),
   ("Heart Minutes", "Heart Minutes (minutes)"),
   ("Low latitude (deg)", "Low Latitude (deg)"),
   ("Low longitude (deg)", "Low Longitude (deg)"),
   ("High latitude (deg)", "High Latitude (deg)"),
   ("High longitude (deg)", "High Longitude (deg)"),
   ("Average speed (m/s)", "Average Speed (m/s)"),
   ("Max speed (m/s)", "Max Speed (m/s)"),
   ("Min speed (m/s)", "Min Speed (m/s)"),
   ("Step count", "Step Count"),
   ("Cycling duration (ms)", "Cycling duration (s)"),
   ("Inactive duration (ms)", "Inactive duration (s)"),
   ("Walking duration (ms)", "Walking duration (s)"),
   ("Running duration (ms)", "Running duration (s)")]

/-- Rename of one column label by google_fit_units (unmapped labels pass). -/
def renameG (s : String) : String :=
  ((googleFitUnits.find? (fun p => p.1 == s)).map (fun p => p.2)).getD s

/-- Post-rename header of file_parser.csv_parser, before the Cycling drop. -/
def csvHeader0 (f : CsvIn) : List String := (f.header.erase "Date").map renameG

/-- Original label of post-rename column c in f. -/
def csvOrig (f : CsvIn) (c : String) : String :=
  (f.header.find? (fun o => o != "Date" && renameG o == c)).getD c

/-- Columns divided by 1000 by file_parser.csv_parser (lines 138-142). -/
def divColsCsv : List String :=
  ["Distance Covered (km)", "Cycling duration (s)", "Inactive duration (s)",
   "Walking duration (s)", "Running duration (s)"]

/-- Columns rounded to 2 decimals by file_parser.csv_parser (lines 144-148). -/
def roundColsCsv : List String :=
  ["Calories Burned (kcal)", "Distance Covered (km)", "Average Speed (m/s)",
   "Max Speed (m/s)", "Min Speed (m/s)"]

/-- Post-rename columns whose absence makes one of the unconditional column
    accesses of lines 138-148 raise KeyError. -/
def requiredCsv : List String :=
  ["Distance Covered (km)", "Cycling duration (s)", "Inactive duration (s)",
   "Walking duration (s)", "Running duration (s)", "Calories Burned (kcal)",
   "Average Speed (m/s)", "Max Speed (m/s)", "Min Speed (m/s)"]

/-- Cell of file_parser.csv_parser's output: fillna(0), the /1000 unit
    conversions, then the display rounding. -/
def csvCell (f : CsvIn) (c : String) (i : Nat) : ℚ :=
  let v0 := (f.entry (csvOrig f c) i).getD 0
  let v1 := if c ∈ divColsCsv then v0 / 1000 else v0
  if c ∈ roundColsCsv then round2 v1 else v1

/-- file_parser.csv_parser: empty input warns and returns None; a missing Date
    column makes df.pop raise (caught, None); a missing required column makes
    one of the unconditional conversions raise (caught, None); otherwise the
    table is returned, with the Cycling column dropped when it sums to 0. -/
def csvParse (f : CsvIn) : Except ParseErr GTable :=
  if f.nrows = 0 then .error .emptyData
  else if "Date" ∉ f.header then .error .schemaMismatch
  else if ¬ (∀ c ∈ requiredCsv, c ∈ csvHeader0 f) then .error .schemaMismatch
  else
    let hdr :=
      if ((List.range f.nrows).map (csvCell f "Cycling duration (s)")).sum = 0
      then (csvHeader0 f).erase "Cycling duration (s)"
      else csvHeader0 f
    .ok ⟨(List.range f.nrows).map f.dateAt, hdr, csvCell f⟩

/-- required_columns selection/rename table of app.excel_parser. -/
def requiredColumnsE : List (String × String) :=
  [("Move Minutes count", "Move Minutes"),
   ("Calories (kcal)", "Calories"),
   ("Distance (m)", "Distance"),
   ("Walking duration (ms)", "Walking Duration"),
   ("Min speed (m/s)", "Min Speed"),
   ("Average speed (m/s)", "Average Speed"),
   ("Max speed (m/s)", "Max Speed"),
   ("Step count", "Steps"),
   ("Heart Points", "Heart Points")]

/-- available_columns of app.excel_parser: the mapping restricted to columns
    present in the file, in dict order. -/
def excelAvail (f : CsvIn) : List (String × String) :=
  requiredColumnsE.filter (fun p => f.header.contains p.1)

/-- Header of app.excel_parser's output: the selected renamed columns, or the
    original columns (minus the Date index) when none of the mapping applies. -/
def excelHeader (f : CsvIn) : List String :=
  if (excelAvail f).isEmpty then f.header.erase "Date" else (excelAvail f).map (fun p => p.2)

/-- Original label of post-rename column c in app.excel_parser. -/
def excelOrig (f : CsvIn) (c : String) : String :=
  if (excelAvail f).isEmpty then c
  else (((excelAvail f).find? (fun p => p.2 == c)).map (fun p => p.1)).getD c

/-- Cell of app.excel_parser's output: fillna(0) on numeric columns, and the
    ms-to-s conversion applied to Walking Duration alone. -/
def excelCell (f : CsvIn) (c : String) (i : Nat) : ℚ :=
  let v := (f.entry (excelOrig f c) i).getD 0
  if c = "Walking Duration" ∧ "Walking Duration" ∈ excelHeader f then v / 1000 else v

/-- app.excel_parser: a missing Date column is reported and None returned;
    otherwise the selected (or passed-through) columns survive. -/
def excelParse (f : CsvIn) : Except ParseErr GTable :=
  if "Date" ∉ f.header then .error .schemaMismatch
  else .ok ⟨(List.range f.nrows).map f.dateAt, excelHeader f, excelCell f⟩

/-- Mean of a pandas numeric column: NaN on an empty column. -/
def pmean (l : List ℚ) : PFloat :=
  if l.isEmpty then .nan else .val (l.sum / l.length)

/-- Python truthiness of a float: 0.0 is falsy; NaN and infinities truthy. -/
def truthy : PFloat → Bool
  | .val q => decide (q ≠ 0)
  | _ => true

/-- Number of st.columns allocated by utils.display_metrics:
    4 if avg_hp else 3, avg_hp evaluated by Python truthiness. -/
def allocCount (hp : PFloat) : Nat := if truthy hp then 4 else 3

/-- Outcome of the metric-rendering loop. -/
inductive DisplayResult where
  | rendered : Nat → DisplayResult
  | indexError
deriving DecidableEq

/-- Column indexes accessed on the Google Fit path of utils.display_metrics:
    cols[0..2] always, and cols[3] because avg_hp is not None there. -/
def googleAccessedCols : List Nat := [0, 1, 2, 3]

/-- utils.display_metrics on a table carrying a "Heart Points" column, reduced
    to its column-allocation and indexing behavior: hpVals is that column. -/
def displayMetricsGoogle (hpVals : List ℚ) : DisplayResult :=
  let n := allocCount (pmean hpVals)
  if googleAccessedCols.all (fun i => decide (i < n)) then .rendered n else .indexError

/-- First concrete record of the C1 scenario for file_parser.xml_parser. -/
def c1rec1 : XmlRecord := ⟨"HKQuantityTypeIdentifierStepCount", some 50, 100, 0, 10⟩

/-- Second concrete record of the C1 scenario, same calendar day. -/
def c1rec2 : XmlRecord := ⟨"HKQuantityTypeIdentifierStepCount", some 30, 200, 0, 10⟩

/-- First concrete record of the C1 scenario for app.parse_xml. -/
def c1a1 : ARecord := ⟨"HKQuantityTypeIdentifierStepCount", some 50, some 0, some 10⟩

/-- Second concrete record of the C1 scenario for app.parse_xml, same day. -/
def c1a2 : ARecord := ⟨"HKQuantityTypeIdentifierStepCount", some 30, some 100, some 110⟩

/-- C1 counterexample: on the scenario input, app.parse_xml (also cited by the
    claim) produces a table whose only column is the unrenamed "StepCount";
    there is no "Step Count" column there at all (the day's sum, 80, sits
    under "StepCount"), so the claimed conclusion fails for that half of the
    XML pipeline. -/
theorem c1_counterexample_parse_xml_unrenamed_column :
    parseXml [c1a1, c1a2] = some ([0], ["StepCount"]) ∧
    "Step Count" ∉ parseXmlColumns [c1a1, c1a2] ∧
    parseXmlCell [c1a1, c1a2] 0 "StepCount" = 80 := by
  have hcols : parseXmlColumns [c1a1, c1a2] = ["StepCount"] := by
    rw [parseXmlColumns]
    rw [show List.map stypeA (parseXmlRows [c1a1, c1a2]) = ["StepCount", "StepCount"] from rfl]
    simp [sortedU, insertU]
  refine ⟨?_, ?_, ?_⟩
  · rw [parseXml]
    rw [show parseXmlRows [c1a1, c1a2] = [c1a1, c1a2] from rfl]
    rw [if_neg (by decide), if_neg (by decide)]
    rw [show List.map aday [c1a1, c1a2] = [0, 0] from rfl]
    rw [show List.map stypeA [c1a1, c1a2] = ["StepCount", "StepCount"] from rfl]
    rw [show sortedU ([0, 0] : List Int) = [0] from rfl]
    simp [sortedU, insertU]
  · rw [hcols]; decide
  · rw [parseXmlCell]
    rw [show (parseXmlRows [c1a1, c1a2]).filter
        (fun r => aday r == (0 : Int) && stypeA r == "StepCount") = [c1a1, c1a2] from rfl]
    rw [show List.map aval [c1a1, c1a2] = [50, 30] from rfl]
    norm_num

/-- C1 (amended): for an XML input of exactly two Record elements of type
    HKQuantityTypeIdentifierStepCount with values 50 and 30 on the same
    calendar day, each XML parser produces a table with exactly that one day
    in its index and a step-count cell of 80 for it: under the canonical
    column "Step Count" in file_parser.xml_parser, but under the unrenamed
    column "StepCount" (with no "Step Count" column) in app.parse_xml. -/
theorem c1_two_step_records_one_row_80_per_pipeline
    (r1 r2 : XmlRecord) (a1 a2 : ARecord)
    (h1 : r1.rectype = "HKQuantityTypeIdentifierStepCount")
    (h2 : r2.rectype = "HKQuantityTypeIdentifierStepCount")
    (hv1 : r1.value = some 50) (hv2 : r2.value = some 30)
    (hd : rdayX r2 = rdayX r1)
    (ha1 : a1.rectype = "HKQuantityTypeIdentifierStepCount")
    (ha2 : a2.rectype = "HKQuantityTypeIdentifierStepCount")
    (hav1 : a1.value = some 50) (hav2 : a2.value = some 30)
    (has1 : a1.startDate.isSome) (has2 : a2.startDate.isSome)
    (hae1 : a1.endDate.isSome) (hae2 : a2.endDate.isSome)
    (had : aday a2 = aday a1) :
    xmlDates [r1, r2] = [rdayX r1] ∧
    xmlCell [r1, r2] (rdayX r1) "Step Count" = PFloat.val 80 ∧
    parseXmlDates [a1, a2] = [aday a1] ∧
    parseXmlColumns [a1, a2] = ["StepCount"] ∧
    "Step Count" ∉ parseXmlColumns [a1, a2] ∧
    parseXmlCell [a1, a2] (aday a1) "StepCount" = 80 := by
  have hs1 : stypeX r1 = "StepCount" := by rw [stypeX, h1]; decide
  have hs2 : stypeX r2 = "StepCount" := by rw [stypeX, h2]; decide
  have hk1 : keepX r1 = true := by rw [keepX, hs1]; decide
  have hk2 : keepX r2 = true := by rw [keepX, hs2]; decide
  have hsa1 : stypeA a1 = "StepCount" := by rw [stypeA, ha1]; decide
  have hsa2 : stypeA a2 = "StepCount" := by rw [stypeA, ha2]; decide
  have hka1 : akeep a1 = true := by rw [akeep, hsa1]; decide
  have hka2 : akeep a2 = true := by rw [akeep, hsa2]; decide
  have hrows : parseXmlRows [a1, a2] = [a1, a2] := by
    rw [parseXmlRows]
    rw [show List.filter akeep [a1, a2] = [a1, a2] by simp [List.filter, hka1, hka2]]
    simp [List.filter, has1, has2, hae1, hae2]
  have hcols : parseXmlColumns [a1, a2] = ["StepCount"] := by
    rw [parseXmlColumns, hrows]
    rw [show List.map stypeA [a1, a2] = ["StepCount", "StepCount"] by simp [hsa1, hsa2]]
    simp [sortedU, insertU]
  refine ⟨?_, ?_, ?_, hcols, by rw [hcols]; decide, ?_⟩
  · rw [xmlDates]
    rw [show List.filter keepX [r1, r2] = [r1, r2] by simp [List.filter, hk1, hk2]]
    simp [sortedU, insertU, hd, lt_irrefl]
  · have hu : unrenameXml "Step Count" = "StepCount" := by decide
    rw [xmlCell]
    simp only [hu]
    rw [if_pos (by decide : ("StepCount" : String) ∈ sumColsX)]
    have hg : xmlGroup [r1, r2] (rdayX r1) "StepCount" = [r1, r2] := by
      simp [xmlGroup, List.filter, hs1, hs2, hd]
    rw [xmlSumCell, hg]
    rw [show List.map xval [r1, r2] = [50, 30] by simp [xval, hv1, hv2]]
    norm_num [round2_eighty]
  · rw [parseXmlDates, hrows]
    rw [show List.map aday [a1, a2] = [aday a1, aday a1] by simp [had]]
    simp [sortedU, insertU, lt_irrefl]
  · rw [parseXmlCell]
    rw [show (parseXmlRows [a1, a2]).filter
        (fun r => aday r == aday a1 && stypeA r == "StepCount") = [a1, a2] by
      rw [hrows]; simp [List.filter, hsa1, hsa2, had]]
    rw [show List.map aval [a1, a2] = [50, 30] by simp [aval, hav1, hav2]]
    norm_num

/-- C1 witness: the amended theorem applied at two concrete records per
    parser. -/
theorem c1_witness :
    xmlDates [c1rec1, c1rec2] = [rdayX c1rec1] ∧
    xmlCell [c1rec1, c1rec2] (rdayX c1rec1) "Step Count" = PFloat.val 80 ∧
    parseXmlDates [c1a1, c1a2] = [aday c1a1] ∧
    parseXmlColumns [c1a1, c1a2] = ["StepCount"] ∧
    "Step Count" ∉ parseXmlColumns [c1a1, c1a2] ∧
    parseXmlCell [c1a1, c1a2] (aday c1a1) "StepCount" = 80 :=
  c1_two_step_records_one_row_80_per_pipeline c1rec1 c1rec2 c1a1 c1a2
    rfl rfl rfl rfl (by decide) rfl rfl rfl rfl rfl rfl rfl rfl (by decide)

/-- Date index of a tabular parse outcome (empty on the error outcome). -/
def resDates : Except ParseErr GTable → List Int
  | .ok t => t.dates
  | .error _ => []

/-- C2 (amended): the date index of each XML-pipeline table (file_parser's
    xml_parser and app's parse_xml) is strictly increasing, and a day enters
    the index of xml_parser's table only when some surviving record fell on
    it, so missing days are simply absent. -/
theorem c2_xml_pipeline_dates_strict_increasing
    (rs : List XmlRecord) (ars : List ARecord) :
    isStrictIncr (xmlDates rs) = true ∧
    isStrictIncr (parseXmlDates ars) = true ∧
    (∀ d, d ∈ xmlDates rs → ∃ r, r ∈ rs ∧ keepX r = true ∧ rdayX r = d) := by
  refine ⟨sortedU_strictIncr _, sortedU_strictIncr _, ?_⟩
  intro d hd
  rw [xmlDates, mem_sortedU] at hd
  obtain ⟨r, hr, hrd⟩ := List.mem_map.mp hd
  obtain ⟨hrs, hk⟩ := List.mem_filter.mp hr
  exact ⟨r, hrs, hk, hrd⟩

/-- Concrete record used to instantiate the C2 theorem. -/
def c2rec : XmlRecord := ⟨"HKQuantityTypeIdentifierStepCount", some 1, 0, 0, 0⟩

/-- C2 witness: the amended theorem applied at a one-record input. -/
theorem c2_witness :
    ∃ r, r ∈ [c2rec] ∧ keepX r = true ∧ rdayX r = 0 :=
  (c2_xml_pipeline_dates_strict_increasing [c2rec] []).2.2 0 (by decide)

/-- Concrete CSV input with two rows on the same calendar day. -/
def c2csv : CsvIn :=
  { header := ["Date", "Distance (m)", "Cycling duration (ms)",
               "Inactive duration (ms)", "Walking duration (ms)",
               "Running duration (ms)", "Calories (kcal)", "Average speed (m/s)",
               "Max speed (m/s)", "Min speed (m/s)"]
    nrows := 2
    entry := fun _ _ => some 1000
    dateAt := fun _ => 5 }

/-- C2 counterexample: file_parser.csv_parser accepts a file with a duplicated
    date and returns a table whose index [5, 5] is not strictly increasing, so
    the invariant does not hold for every valid input of the pipeline. -/
theorem c2_counterexample_csv_duplicate_dates :
    (csvParse c2csv).isOk = true ∧ resDates (csvParse c2csv) = [5, 5] ∧
    isStrictIncr (resDates (csvParse c2csv)) = false := by
  have ho : csvOrig c2csv "Cycling duration (s)" = "Cycling duration (ms)" := by decide
  have hcell : ∀ i, csvCell c2csv "Cycling duration (s)" i = 1 := by
    intro i
    simp only [csvCell, ho]
    rw [show c2csv.entry "Cycling duration (ms)" i = some 1000 from rfl]
    rw [if_pos (by decide : "Cycling duration (s)" ∈ divColsCsv)]
    rw [if_neg (by decide : "Cycling duration (s)" ∉ roundColsCsv)]
    norm_num
  have hsum : ((List.range c2csv.nrows).map (csvCell c2csv "Cycling duration (s)")).sum = 2 := by
    rw [show c2csv.nrows = 2 from rfl, show List.range 2 = [0, 1] from rfl]
    rw [List.map_cons, List.map_cons, List.map_nil, hcell 0, hcell 1]
    norm_num
  have hne : ¬ ((List.range c2csv.nrows).map (csvCell c2csv "Cycling duration (s)")).sum = 0 := by
    rw [hsum]; norm_num
  have hres : csvParse c2csv =
      .ok ⟨(List.range c2csv.nrows).map c2csv.dateAt, csvHeader0 c2csv, csvCell c2csv⟩ := by
    rw [csvParse, if_neg (by decide), if_neg (by decide), if_neg (by decide), if_neg hne]
  rw [hres]
  refine ⟨rfl, rfl, by decide⟩

/-- Weighted-type record with duration 10 seconds and value 5. -/
def c3r1 : XmlRecord := ⟨"HKQuantityTypeIdentifierWalkingSpeed", some 5, 0, 0, 10⟩

/-- Weighted-type record on the same day with duration -10 seconds, value 3. -/
def c3r2 : XmlRecord := ⟨"HKQuantityTypeIdentifierWalkingSpeed", some 3, 0, 10, 0⟩

/-- C3 counterexample: a same-day WalkingSpeed group whose durations sum to 0
    but whose weighted numerator is 20 (negative durations are never dropped
    by file_parser.xml_parser) makes the final cell positive infinity, which
    the fill step does not turn into 0. -/
theorem c3_counterexample_zero_duration_inf_cell :
    ((xmlGroup [c3r1, c3r2] 0 "WalkingSpeed").map durX).sum = 0 ∧
    xmlCell [c3r1, c3r2] 0 "Walking Speed (m/s)" = PFloat.inf := by
  have hg : xmlGroup [c3r1, c3r2] 0 "WalkingSpeed" = [c3r1, c3r2] := rfl
  have hdur : ((xmlGroup [c3r1, c3r2] 0 "WalkingSpeed").map durX).sum = 0 := by
    rw [hg]; norm_num [durX, c3r1, c3r2]
  refine ⟨hdur, ?_⟩
  have hnum : ((xmlGroup [c3r1, c3r2] 0 "WalkingSpeed").map (fun r => xval r * durX r)).sum = 20 := by
    rw [hg]; norm_num [durX, xval, c3r1, c3r2]
  simp only [xmlCell, show unrenameXml "Walking Speed (m/s)" = "WalkingSpeed" from rfl]
  rw [if_neg (by decide : "WalkingSpeed" ∉ sumColsX)]
  rw [if_pos (by decide : "WalkingSpeed" ∈ weightedColsX)]
  simp only [xmlWeightedCell, hnum, hdur]
  rw [show (xmlGroup [c3r1, c3r2] 0 "WalkingSpeed").isEmpty = false from rfl]
  simp only [Bool.false_eq_true, if_false, pdiv]
  norm_num [fillZ, proundTwo]

/-- C3 (amended): the duration-weighted aggregation of file_parser.xml_parser
    never faults; when both the duration sum and the weighted numerator of a
    (day, metric) group are zero (in particular whenever every duration in the
    group is zero) the final cell is 0 after the fill step.  When the duration
    sum is zero but the numerator is not, the cell is an infinity instead. -/
theorem c3_zero_sums_weighted_cell_zero
    (rs : List XmlRecord) (d : Int) (c : String)
    (hw : unrenameXml c ∈ weightedColsX)
    (hd : ((xmlGroup rs d (unrenameXml c)).map durX).sum = 0)
    (hn : ((xmlGroup rs d (unrenameXml c)).map (fun r => xval r * durX r)).sum = 0) :
    xmlCell rs d c = PFloat.val 0 := by
  have hw' := hw
  simp only [weightedColsX, List.mem_cons, List.not_mem_nil, or_false] at hw'
  have hns : unrenameXml c ∉ sumColsX := by
    rcases hw' with h | h | h | h | h <;> rw [h] <;> decide
  simp only [xmlCell]
  rw [if_neg hns, if_pos hw]
  by_cases hge : (xmlGroup rs d (unrenameXml c)).isEmpty
  · simp [xmlWeightedCell, hge]
  · simp only [xmlWeightedCell, hge, Bool.false_eq_true, if_false, hd, hn]
    simp [pdiv, fillZ, proundTwo, round2_zero]

/-- Weighted-type record whose duration is zero (start equals end). -/
def c3w : XmlRecord := ⟨"HKQuantityTypeIdentifierWalkingSpeed", some 4, 0, 7, 7⟩

/-- C3 witness: the amended theorem applied at a one-record zero-duration
    group. -/
theorem c3_witness : xmlCell [c3w] 0 "Walking Speed (m/s)" = PFloat.val 0 :=
  c3_zero_sums_weighted_cell_zero [c3w] 0 "Walking Speed (m/s)"
    (by decide)
    (by rw [show xmlGroup [c3w] 0 (unrenameXml "Walking Speed (m/s)") = [c3w] from rfl]
        norm_num [durX, c3w])
    (by rw [show xmlGroup [c3w] 0 (unrenameXml "Walking Speed (m/s)") = [c3w] from rfl]
        norm_num [durX, xval, c3w])

/-- Apple record whose value string fails numeric coercion. -/
def c4x : XmlRecord := ⟨"HKQuantityTypeIdentifierStepCount", none, 0, 0, 0⟩

/-- C4 counterexample: file_parser.xml_parser is the Apple-style normalizer,
    yet on a coercion failure it substitutes 0, not 1.0: the kept row yields a
    "Step Count" cell of 0 for its day. -/
theorem c4_counterexample_apple_default_is_zero :
    xval c4x = 0 ∧ rdayX c4x ∈ xmlDates [c4x] ∧
    xmlCell [c4x] (rdayX c4x) "Step Count" = PFloat.val 0 ∧ (0 : ℚ) ≠ 1 := by
  refine ⟨rfl, by decide, ?_, by norm_num⟩
  simp only [xmlCell, show unrenameXml "Step Count" = "StepCount" from rfl]
  rw [if_pos (by decide : "StepCount" ∈ sumColsX)]
  rw [xmlSumCell, show xmlGroup [c4x] (rdayX c4x) "StepCount" = [c4x] from rfl]
  rw [show List.map xval [c4x] = [0] from rfl]
  norm_num [round2_zero]

/-- C4 (amended): a raw record whose value fails numeric coercion is never
    dropped for that alone, and the substituted default is parser-specific:
    app.parse_xml (Apple) fills 1.0, file_parser.xml_parser (Apple) fills 0,
    and the Google-style tabular parsers fill 0. -/
theorem c4_coercion_failure_defaults
    (r : XmlRecord) (a : ARecord) (f : CsvIn) (c : String) (i : Nat)
    (hr : r.value = none) (hrk : keepX r = true)
    (ha : a.value = none) (hak : akeep a = true)
    (has : a.startDate.isSome) (hae : a.endDate.isSome)
    (hf : f.entry (csvOrig f c) i = none)
    (hc1 : c ∉ divColsCsv) (hc2 : c ∉ roundColsCsv) :
    xval r = 0 ∧ rdayX r ∈ xmlDates [r] ∧
    aval a = 1 ∧ a ∈ parseXmlRows [a] ∧
    csvCell f c i = 0 := by
  refine ⟨?_, ?_, ?_, ?_, ?_⟩
  · rw [xval, hr]; rfl
  · rw [xmlDates]
    simp [List.filter, hrk, sortedU, insertU]
  · rw [aval, ha]; rfl
  · simp [parseXmlRows, List.filter, hak, has, hae]
  · simp only [csvCell, hf]
    rw [if_neg hc1, if_neg hc2]
    rfl

/-- Apple record for app.parse_xml whose value fails coercion. -/
def c4a : ARecord := ⟨"HKQuantityTypeIdentifierStepCount", none, some 0, some 0⟩

/-- Google CSV input whose Step count cell fails coercion. -/
def c4f : CsvIn := ⟨["Date", "Step count"], 1, fun _ _ => none, fun _ => 0⟩

/-- C4 witness: the amended theorem applied at concrete coercion failures. -/
theorem c4_witness :
    xval c4x = 0 ∧ rdayX c4x ∈ xmlDates [c4x] ∧
    aval c4a = 1 ∧ c4a ∈ parseXmlRows [c4a] ∧
    csvCell c4f "Step Count" 0 = 0 :=
  c4_coercion_failure_defaults c4x c4a c4f "Step Count" 0 rfl (by decide) rfl
    (by decide) rfl rfl rfl (by decide) (by decide)

/-- Header of a standard Google Fit daily-metrics CSV export. -/
def stdGHeader : List String :=
  ["Date", "Distance (m)", "Cycling duration (ms)", "Inactive duration (ms)",
   "Walking duration (ms)", "Running duration (ms)", "Calories (kcal)",
   "Average speed (m/s)", "Max speed (m/s)", "Min speed (m/s)"]

/-- Excel input carrying a raw 1000 m distance cell. -/
def c5g : CsvIn := ⟨["Date", "Distance (m)"], 1, fun _ _ => some 1000, fun _ => 0⟩

/-- C5 counterexample: app.excel_parser keeps a distance of 1000 meters as
    1000 in its output column, performing no meters-to-kilometers division. -/
theorem c5_counterexample_excel_distance_unconverted :
    (excelParse c5g).isOk = true ∧ excelCell c5g "Distance" 0 = 1000 ∧
    (1000 : ℚ) ≠ 1 := by
  refine ⟨rfl, ?_, by norm_num⟩
  simp only [excelCell, show excelOrig c5g "Distance" = "Distance (m)" from rfl]
  rw [show c5g.entry "Distance (m)" 0 = some 1000 from rfl]
  rw [if_neg (fun h => absurd h.1 (by decide))]
  rfl

/-- C5 (amended): file_parser.csv_parser divides the distance column and every
    duration column by 1000 (meters to kilometers, milliseconds to seconds),
    but app.excel_parser converts only the walking duration and leaves the
    distance column in raw meters. -/
theorem c5_unit_conversions_per_source
    (f g : CsvIn) (i : Nat)
    (hf : f.header = stdGHeader)
    (hg : g.header = ["Date", "Distance (m)", "Walking duration (ms)"]) :
    csvCell f "Distance Covered (km)" i = round2 ((f.entry "Distance (m)" i).getD 0 / 1000) ∧
    csvCell f "Walking duration (s)" i = (f.entry "Walking duration (ms)" i).getD 0 / 1000 ∧
    excelCell g "Walking Duration" i = (g.entry "Walking duration (ms)" i).getD 0 / 1000 ∧
    excelCell g "Distance" i = (g.entry "Distance (m)" i).getD 0 := by
  have h1 : csvOrig f "Distance Covered (km)" = "Distance (m)" := by
    simp only [csvOrig, hf]; rfl
  have h2 : csvOrig f "Walking duration (s)" = "Walking duration (ms)" := by
    simp only [csvOrig, hf]; rfl
  have ha : excelAvail g = [("Distance (m)", "Distance"),
      ("Walking duration (ms)", "Walking Duration")] := by
    simp only [excelAvail, hg]; rfl
  have hh : excelHeader g = ["Distance", "Walking Duration"] := by
    simp only [excelHeader, ha]; rfl
  have h3 : excelOrig g "Walking Duration" = "Walking duration (ms)" := by
    simp only [excelOrig, ha]; rfl
  have h4 : excelOrig g "Distance" = "Distance (m)" := by
    simp only [excelOrig, ha]; rfl
  refine ⟨?_, ?_, ?_, ?_⟩
  · simp only [csvCell, h1]
    rw [if_pos (by decide : "Distance Covered (km)" ∈ divColsCsv)]
    rw [if_pos (by decide : "Distance Covered (km)" ∈ roundColsCsv)]
  · simp only [csvCell, h2]
    rw [if_pos (by decide : "Walking duration (s)" ∈ divColsCsv)]
    rw [if_neg (by decide : "Walking duration (s)" ∉ roundColsCsv)]
  · simp only [excelCell, h3, hh]
    rw [if_pos (by simp)]
  · simp only [excelCell, h4]
    rw [if_neg (fun h => absurd h.1 (by decide))]

/-- Google CSV input with a 1000 m distance and a 60000 ms walking duration. -/
def c5f : CsvIn :=
  ⟨stdGHeader, 1,
   fun c _ => if c = "Distance (m)" then some 1000
              else if c = "Walking duration (ms)" then some 60000 else some 0,
   fun _ => 0⟩

/-- Excel input with the same raw distance and walking duration values. -/
def c5g2 : CsvIn :=
  ⟨["Date", "Distance (m)", "Walking duration (ms)"], 1,
   fun c _ => if c = "Distance (m)" then some 1000
              else if c = "Walking duration (ms)" then some 60000 else some 0,
   fun _ => 0⟩

/-- C5 witness: at the concrete inputs, 1000 m becomes 1.00 km and 60000 ms
    becomes 60.0 s in csv_parser, while excel_parser converts the duration but
    keeps the raw 1000 m distance. -/
theorem c5_witness :
    csvCell c5f "Distance Covered (km)" 0 = 1 ∧
    csvCell c5f "Walking duration (s)" 0 = 60 ∧
    excelCell c5g2 "Walking Duration" 0 = 60 ∧
    excelCell c5g2 "Distance" 0 = 1000 := by
  obtain ⟨h1, h2, h3, h4⟩ := c5_unit_conversions_per_source c5f c5g2 0 rfl rfl
  refine ⟨?_, ?_, ?_, ?_⟩
  · rw [h1, show (c5f.entry "Distance (m)" 0).getD 0 = 1000 from rfl]
    norm_num [round2, roundHalfEven, qfloor]
  · rw [h2, show (c5f.entry "Walking duration (ms)" 0).getD 0 = 60000 from rfl]
    norm_num
  · rw [h3, show (c5g2.entry "Walking duration (ms)" 0).getD 0 = 60000 from rfl]
    norm_num
  · rw [h4]
    rfl

/-- Record whose end timestamp precedes its start timestamp. -/
def c6neg : ARecord := ⟨"HKQuantityTypeIdentifierStepCount", some 1, some 100, some 40⟩

/-- C6 counterexample: app.parse_xml keeps a row whose duration is -60 seconds;
    the negative-duration row survives to the aggregation pivot (its day enters
    the index), so rows are not dropped on negative duration. -/
theorem c6_counterexample_negative_duration_kept :
    parseXmlRows [c6neg] = [c6neg] ∧ adur c6neg = -60 ∧ adur c6neg < 0 ∧
    aday c6neg ∈ parseXmlDates [c6neg] := by
  refine ⟨rfl, rfl, by decide, by decide⟩

/-- C6 (amended): in app.parse_xml a row is dropped exactly when its type is
    excluded or one of its timestamps fails to parse; a parseable row with
    negative duration is kept and reaches aggregation. -/
theorem c6_rows_dropped_only_on_timestamp_failure
    (rs : List ARecord) (r : ARecord) :
    (r ∈ parseXmlRows rs → r.startDate.isSome = true ∧ r.endDate.isSome = true) ∧
    (r ∈ rs → akeep r = true → r.startDate.isSome = true → r.endDate.isSome = true →
      r ∈ parseXmlRows rs) := by
  constructor
  · intro h
    obtain ⟨_, h2⟩ := List.mem_filter.mp h
    simp only [Bool.and_eq_true] at h2
    exact h2
  · intro hrs hk hs he
    exact List.mem_filter.mpr ⟨List.mem_filter.mpr ⟨hrs, hk⟩, by simp [hs, he]⟩

/-- C6 witness: the amended theorem keeps the concrete negative-duration row. -/
theorem c6_witness : c6neg ∈ parseXmlRows [c6neg] :=
  (c6_rows_dropped_only_on_timestamp_failure [c6neg] c6neg).2
    (List.mem_singleton.mpr rfl) (by decide) rfl rfl

/-- C7: a CSV/Excel input without a Date column makes both tabular parsers
    fail with the schema-mismatch outcome and surface the empty result (for
    csv_parser the input must be nonempty, or the emptiness error fires
    first); neither produces a partial table or a process-fatal crash. -/
theorem c7_missing_date_schema_mismatch (f : CsvIn) (h : "Date" ∉ f.header) :
    excelParse f = .error .schemaMismatch ∧
    (f.nrows ≠ 0 → csvParse f = .error .schemaMismatch) := by
  constructor
  · rw [excelParse, if_pos h]
  · intro hn
    rw [csvParse, if_neg hn, if_pos h]

/-- Tabular input with no Date column. -/
def c7f : CsvIn := ⟨["Foo"], 1, fun _ _ => none, fun _ => 0⟩

/-- C7 witness: both parsers reject the concrete Date-less input. -/
theorem c7_witness :
    excelParse c7f = .error .schemaMismatch ∧
    csvParse c7f = .error .schemaMismatch :=
  ⟨(c7_missing_date_schema_mismatch c7f (by decide)).1,
   (c7_missing_date_schema_mismatch c7f (by decide)).2 (by decide)⟩

/-- Every source type of file_parser.xml_parser's pivots renames to a
    canonical metric name. -/
theorem renameXml_mem_canonical (t : String)
    (h : t ∈ sumColsX ∨ t ∈ weightedColsX) : renameXml t ∈ canonicalVocab := by
  simp only [sumColsX, weightedColsX, List.mem_cons, List.not_mem_nil, or_false] at h
  rcases h with (h | h | h | h | h) | (h | h | h | h | h) <;> rw [h] <;> decide

/-- C8 (amended): every column of the table built by file_parser.xml_parser is
    a canonical metric name (its pivots whitelist the recognized types and the
    rename map sends each to the canonical vocabulary); app.parse_xml instead
    drops only its three excluded types and lets any other type through as a
    column under its stripped source name. -/
theorem c8_xml_table_columns_canonical (rs : List XmlRecord) :
    ∀ c ∈ xmlColumns rs, c ∈ canonicalVocab := by
  intro c hc
  simp only [xmlColumns, List.mem_map] at hc
  obtain ⟨t, ht, rfl⟩ := hc
  rcases List.mem_append.mp ht with h | h
  · exact renameXml_mem_canonical t (Or.inl (List.mem_filter.mp h).1)
  · exact renameXml_mem_canonical t (Or.inr (List.mem_filter.mp h).1)

/-- Step-count record for app.parse_xml. -/
def c8a : ARecord := ⟨"HKQuantityTypeIdentifierStepCount", some 50, some 0, some 10⟩

/-- C8 counterexample: app.parse_xml turns a plain step-count record into a
    column named "StepCount", which is not in the canonical vocabulary, so the
    claim fails for that half of the pipeline. -/
theorem c8_counterexample_parse_xml_noncanonical_column :
    parseXml [c8a] = some ([0], ["StepCount"]) ∧ "StepCount" ∉ canonicalVocab := by
  exact ⟨rfl, by decide⟩

/-- Step-count record for file_parser.xml_parser. -/
def c8x : XmlRecord := ⟨"HKQuantityTypeIdentifierStepCount", some 2, 0, 0, 0⟩

/-- C8 witness: the amended theorem applied at a concrete one-record input. -/
theorem c8_witness : "Step Count" ∈ canonicalVocab :=
  c8_xml_table_columns_canonical [c8x] "Step Count" (by decide)

/-- The five post-rename Google Fit columns are all unconditionally accessed
    by file_parser.csv_parser. -/
theorem div_subset_required : ∀ c ∈ divColsCsv, c ∈ requiredCsv := by decide

/-- C9: file_parser.csv_parser returns a table only when all five post-rename
    Google Fit columns (distance and the four durations) are present; if any
    one is missing, the unconditional division raises, the exception branch
    runs, and the empty error outcome is returned instead of a partial
    table. -/
theorem c9_csv_requires_google_columns (f : CsvIn) :
    (∀ t, csvParse f = .ok t → ∀ c ∈ divColsCsv, c ∈ csvHeader0 f) ∧
    (f.nrows ≠ 0 → "Date" ∈ f.header → (∃ c ∈ divColsCsv, c ∉ csvHeader0 f) →
      csvParse f = .error .schemaMismatch) := by
  constructor
  · intro t h
    rw [csvParse] at h
    by_cases h0 : f.nrows = 0
    · rw [if_pos h0] at h; exact absurd h (by simp)
    rw [if_neg h0] at h
    by_cases h1 : "Date" ∉ f.header
    · rw [if_pos h1] at h; exact absurd h (by simp)
    rw [if_neg h1] at h
    by_cases h2 : ¬ (∀ c ∈ requiredCsv, c ∈ csvHeader0 f)
    · rw [if_pos h2] at h; exact absurd h (by simp)
    rw [not_not] at h2
    intro c hc
    exact h2 c (div_subset_required c hc)
  · rintro hn hd ⟨c, hc, hcn⟩
    rw [csvParse, if_neg hn, if_neg (not_not_intro hd)]
    rw [if_pos (fun hall => hcn (hall c (div_subset_required c hc)))]

/-- CSV input with a Date column but no Distance (m) column. -/
def c9f : CsvIn :=
  ⟨["Date", "Cycling duration (ms)", "Inactive duration (ms)",
    "Walking duration (ms)", "Running duration (ms)", "Calories (kcal)",
    "Average speed (m/s)", "Max speed (m/s)", "Min speed (m/s)"],
   1, fun _ _ => some 0, fun _ => 0⟩

/-- C9 witness: the concrete input missing its distance column is rejected
    with the schema-mismatch outcome. -/
theorem c9_witness : csvParse c9f = .error .schemaMismatch :=
  (c9_csv_requires_google_columns c9f).2 (by decide) (by decide)
    ⟨"Distance Covered (km)", by decide, by decide⟩

/-- C10: utils.display_metrics on a Google Fit table whose Heart Points column
    has all-time mean exactly 0 allocates only three columns (the truthiness
    test `4 if avg_hp else 3` sees 0.0 as falsy) yet still renders the fourth
    metric (`avg_hp is not None`), indexing past the allocated columns. -/
theorem c10_heart_points_zero_mean_index_error :
    displayMetricsGoogle [0] = DisplayResult.indexError := by
  have hm : pmean [0] = PFloat.val 0 := by
    simp only [pmean]
    norm_num
  simp only [displayMetricsGoogle, hm]
  rfl

end HealthViz
